import Mathlib

/-!
Verification of the sentiment-to-proposal fine-tuning notebook
(`Final_project.ipynb`).  Pure functions of the notebook are embedded
directly; library calls (dataset shuffling, the SentencePiece tokenizer,
the numeric backend) are embedded as explicit parameters together with
their documented contracts.
-/

set_option maxRecDepth 40000

/-- The ASCII single-quote character used by the template around the sentence. -/
def apos : String := String.mk [Char.ofNat 39]

/-- Embedding of `create_synthetic_proposal(sentence, label)` from the notebook:
`sentiment = "positive" if label == 1 else "negative"`, then the three
template sections joined with newlines. -/
def create_synthetic_proposal (sentence : String) (label : Int) : String :=
  "Problem: Analyze sentiment in short texts like: " ++ apos ++ sentence ++ apos ++
    "\nHypothesis: The " ++ (if label = 1 then "positive" else "negative") ++
    " sentiment can be detected using contextual embeddings." ++
    "\nMethodology: Use a transformer-based model with fine-tuning on short-text datasets."

/-- The section marker "Problem:" as a character list. -/
def problemMarker : List Char := ("Problem:").data

/-- The section marker "Hypothesis:" as a character list. -/
def hypothesisMarker : List Char := ("Hypothesis:").data

/-- The section marker "Methodology:" as a character list. -/
def methodologyMarker : List Char := ("Methodology:").data

/-- Number of positions of `s` at which the pattern `p` occurs (occurrences
may overlap; each starting position counts once). -/
def countOccs (p : List Char) : List Char → Nat
  | [] => if List.isPrefixOf p [] then 1 else 0
  | c :: rest => (if List.isPrefixOf p (c :: rest) then 1 else 0) + countOccs p rest

/-- `p` occurs in `s` starting at position `i`. -/
def occursAt (p s : List Char) (i : Nat) : Prop := p <+: s.drop i

/-- The fixed template text before the embedded sentence (up to and including
the opening single quote). -/
def pre1 : List Char :=
  ("Problem: Analyze sentiment in short texts like: ").data ++ [Char.ofNat 39]

/-- The fixed template text after the embedded sentence when `label = 1`. -/
def sufPos : List Char :=
  [Char.ofNat 39] ++
    ("\nHypothesis: The positive sentiment can be detected using contextual embeddings.\nMethodology: Use a transformer-based model with fine-tuning on short-text datasets.").data

/-- The fixed template text after the embedded sentence when `label ≠ 1`. -/
def sufNeg : List Char :=
  [Char.ofNat 39] ++
    ("\nHypothesis: The negative sentiment can be detected using contextual embeddings.\nMethodology: Use a transformer-based model with fine-tuning on short-text datasets.").data

/-- The label-dependent template text after the embedded sentence. -/
def suf2 (label : Int) : List Char := if label = 1 then sufPos else sufNeg

/-- Python substring containment `p in s`, via the occurrence counter. -/
def containsSub (p s : List Char) : Bool := decide (0 < countOccs p s)

/-- Embedding of the marker test used by the `relevance` line of the notebook:
`"Problem:" in pred and "Hypothesis:" in pred and "Methodology:" in pred`. -/
def containsAllMarkers (s : String) : Bool :=
  containsSub problemMarker s.data && containsSub hypothesisMarker s.data &&
    containsSub methodologyMarker s.data

/-- Embedding of the notebook line
`relevance = sum(1 for pred in generated if ...) / len(generated)`.
Python division raises `ZeroDivisionError` when the denominator is zero, so
the embedded computation is `none` exactly on the empty list. -/
def relevance (generated : List String) : Option ℚ :=
  if generated.length = 0 then none
  else some ((generated.countP containsAllMarkers : ℚ) / (generated.length : ℚ))

/-- Embedding of one call to the dataset `train_test_split` method: the
library shuffles the rows with a generator seeded by the fixed seed (a fixed
permutation `shuffled` of the rows for a fixed seed), takes the first `nTest`
shuffled rows as the test split and the remaining rows as the train split. -/
def train_test_split (shuffled : List α) (nTest : Nat) : List α × List α :=
  (shuffled.drop nTest, shuffled.take nTest)

/-- `ceil(0.2 * n)`: the test-row count for `test_size=0.2`. -/
def tempSize (n : Nat) : Nat := (n + 4) / 5

/-- `ceil(0.5 * m)`: the test-row count for `test_size=0.5`. -/
def halfSize (m : Nat) : Nat := (m + 1) / 2

/-- The two-stage split of the notebook: first 80/20 with seed 42, then the
20% remainder 50/50 with seed 42.  `perm1` is the seeded shuffle of the
source rows and `perm2` the seeded shuffle of the 20% remainder; the result
is `(train, val, test)` as bound by the notebook. -/
def twoStageSplit (perm1 perm2 : List α) : List α × List α × List α :=
  let fst := train_test_split perm1 (tempSize perm1.length)
  let snd := train_test_split perm2 (halfSize perm2.length)
  (fst.1, snd.1, snd.2)

/-- Outcome of running the notebook top to bottom.  `exited code msg` models
`raise SystemExit(msg)` after a printed diagnostic (a string argument makes
the interpreter print it and exit with status 1); `crashed err` models an
exception propagating uncaught out of an unguarded cell. -/
inductive RunOutcome where
  | completed : RunOutcome
  | exited : Nat → String → RunOutcome
  | crashed : String → RunOutcome
deriving DecidableEq

/-- The hint message of the dataset-load `except` block. -/
def datasetHint : String :=
  "Dataset loading failed. Please check Hugging Face access or try rotten_tomatoes dataset."

/-- The hint message of the preprocessing `except` block. -/
def preprocessHint : String := "Preprocessing failed. Check dataset structure."

/-- The hint message of the model-load `except` block. -/
def modelHint : String := "Model loading failed. Check Hugging Face access."

/-- Control-flow embedding of the notebook cells in execution order: dataset
load (guarded), preprocessing and split (guarded), model/tokenizer load
(guarded), tokenization, training loop and evaluation (all unguarded).  Each
stage is a parameter recording whether the underlying library call succeeds
or raises. -/
def pipeline (dsLoad preprocess modelLoad tokenizeStage trainLoop evalStage :
    Except String Unit) : RunOutcome :=
  match dsLoad with
  | .error _ => .exited 1 datasetHint
  | .ok _ =>
    match preprocess with
    | .error _ => .exited 1 preprocessHint
    | .ok _ =>
      match modelLoad with
      | .error _ => .exited 1 modelHint
      | .ok _ =>
        match tokenizeStage with
        | .error e => .crashed e
        | .ok _ =>
          match trainLoop with
          | .error e => .crashed e
          | .ok _ =>
            match evalStage with
            | .error e => .crashed e
            | .ok _ => .completed

/-- The mutable state of the training/validation loop of the notebook:
the model parameters (base weights plus trainable low-rank adapter
matrices) and the two running loss accumulators. -/
structure TrainState (P : Type) where
  params : P
  runningTrainLoss : ℚ
  runningValLoss : ℚ

/-- One training mini-batch step: forward pass computing the loss from the
current parameters, backward pass plus one optimizer step updating the
parameters (`optStep` embeds Adafactor applied through the gradients),
gradients zeroed, training loss accumulated. -/
def trainStep {P B : Type} (forward : P → B → ℚ) (optStep : P → B → P)
    (st : TrainState P) (b : B) : TrainState P :=
  { params := optStep st.params b
    runningTrainLoss := st.runningTrainLoss + forward st.params b
    runningValLoss := st.runningValLoss }

/-- One validation mini-batch step (the `torch.no_grad()` block): the same
forward pass as training, no optimizer step, only the running validation
loss accumulates. -/
def valStep {P B : Type} (forward : P → B → ℚ) (st : TrainState P) (b : B) :
    TrainState P :=
  { st with runningValLoss := st.runningValLoss + forward st.params b }

/-- The VALIDATE phase of one epoch: fold `valStep` over the validation
batches. -/
def runValidation {P B : Type} (forward : P → B → ℚ) (st : TrainState P)
    (batches : List B) : TrainState P :=
  batches.foldl (valStep forward) st

/-- T5 pad token id. -/
def padId : Nat := 0

/-- T5 end-of-sequence token id. -/
def eosId : Nat := 1

/-- Embedding of
`tokenizer(text, max_length=cap, truncation=True, padding="max_length")["input_ids"]`
on top of an abstract SentencePiece encoder `encodeRaw`: the encoder output
is truncated to `cap - 1` content tokens (room is reserved for the
end-of-sequence token the tokenizer appends), the eos id is appended, and
the sequence is padded to length `cap` with the pad id. -/
def tokenizeWithCap (encodeRaw : String → List Nat) (cap : Nat) (s : String) :
    List Nat :=
  let raw := (encodeRaw s).take (cap - 1)
  raw ++ [eosId] ++ List.replicate (cap - (raw.length + 1)) padId

/-- `tokenizer.batch_decode(ids, skip_special_tokens=True)` for one sequence:
the special pad/eos ids are dropped and the remaining ids decoded with the
abstract SentencePiece decoder. -/
def decodeSkipSpecial (decodeRaw : List Nat → String) (ids : List Nat) : String :=
  decodeRaw (ids.filter (fun t => !(t == padId) && !(t == eosId)))

/-- A toy injective tokenizer used as a concrete instance of the abstract
encoder/decoder pair: each character becomes its code point shifted past the
special ids. -/
def toyEncode (s : String) : List Nat := s.data.map (fun c => c.toNat + 2)

/-- Decoder of the toy tokenizer. -/
def toyDecode (ids : List Nat) : String := String.mk (ids.map (fun n => Char.ofNat (n - 2)))

/-- Embedding of the target side of `tokenize_function`:
`targets = tokenizer(target_text, max_length=256, truncation=True, padding="max_length")`
followed by `inputs["labels"] = targets["input_ids"]`.  The ids are cast to
`Int` because the collator and the loss work over label ids that may be the
negative ignore index. -/
def tokenize_function_labels (encodeRaw : String → List Nat) (targetText : String) :
    List Int :=
  (tokenizeWithCap encodeRaw 256 targetText).map (fun n => (n : Int))

/-- The ignore index of the seq2seq cross-entropy loss
(`CrossEntropyLoss(ignore_index=-100)`), which is also
`DataCollatorForSeq2Seq.label_pad_token_id`. -/
def ignoreIndex : Int := -100

/-- Embedding of `DataCollatorForSeq2Seq` acting on the label sequences of a
batch: every label sequence is extended to the longest label length in the
batch with the label pad id `-100`; ids already present are left unchanged. -/
def collateLabels (batch : List (List Int)) : List (List Int) :=
  let m := (batch.map List.length).foldr max 0
  batch.map (fun l => l ++ List.replicate (m - l.length) ignoreIndex)

/-- A label position contributes to the training loss iff its id differs
from the ignore index. -/
def lossCountsPosition (lab : Int) : Bool := !(lab == ignoreIndex)

/-- Dot product of two embedding vectors of dimension `d`. -/
noncomputable def dotR {d : Nat} (a b : Fin d → ℝ) : ℝ := ∑ i, a i * b i

/-- Cosine similarity as computed by `util.cos_sim`: the dot product divided
by the product of the Euclidean norms (with the division-by-zero convention
giving 0 for a zero vector, which matches the clamped torch value there). -/
noncomputable def cosSim {d : Nat} (a b : Fin d → ℝ) : ℝ :=
  dotR a b / (Real.sqrt (dotR a a) * Real.sqrt (dotR b b))

/-- Sum of all entries of the pairwise cosine-similarity matrix
`util.cos_sim(embeddings, embeddings)` (diagonal included, as in the
notebook). -/
noncomputable def pairSimSum {d : Nat} (es : List (Fin d → ℝ)) : ℝ :=
  (es.map (fun a => (es.map (fun b => cosSim a b)).sum)).sum

/-- `.mean()` of the pairwise cosine-similarity matrix: the entry sum over
the squared sample size. -/
noncomputable def meanPairSim {d : Nat} (es : List (Fin d → ℝ)) : ℝ :=
  pairSimSum es / ((es.length : ℝ) * (es.length : ℝ))

/-- Embedding of `novelty = 1 - cosine_scores` over the embeddings of the
first `min(100, n)` predictions (`generated[:min(100, len(generated))]`).
The opaque sentence-embedding model makes the embedding vectors arbitrary,
so the score is a function of the embedding list. -/
noncomputable def noveltyScore {d : Nat} (gen : List (Fin d → ℝ)) : ℝ :=
  1 - meanPairSim (gen.take (min 100 gen.length))

theorem countOccs_nil_of_ne (p : List Char) (h : p ≠ []) : countOccs p [] = 0 := by
  simp only [countOccs]
  rw [if_neg]
  simp [ List.isPrefixOf_iff_prefix, h]

theorem countOccs_cons (p : List Char) (c : Char) (rest : List Char) :
    countOccs p (c :: rest) =
      (if p <+: (c :: rest) then 1 else 0) + countOccs p rest := by
  simp [countOccs, List.isPrefixOf_iff_prefix ]

theorem prefix_of_append_of_le {p a b : List Char} (h : p <+: a ++ b)
    (hl : p.length ≤ a.length) : p <+: a := by
  rw [ List.prefix_iff_eq_take] at h
  rw [List.take_append_of_le_length hl] at h
  rw [h]
  exact List.take_prefix _ _

theorem take_of_prefix_append {p t b : List Char} (h : p <+: t ++ b)
    (hl : t.length ≤ p.length) : t = p.take t.length := by
  obtain ⟨r, hr⟩ := h
  have h1 : (p ++ r).take t.length = p.take t.length :=
    List.take_append_of_le_length hl
  rw [hr] at h1
  rw [List.take_append_of_le_length (Nat.le_refl _), List.take_length] at h1
  exact h1

theorem countOccs_append (p a b : List Char) (hp : p ≠ [])
    (hspan : ∀ i, i < a.length → p <+: a.drop i ++ b → p <+: a.drop i) :
    countOccs p (a ++ b) = countOccs p a + countOccs p b := by
  induction a with
  | nil => simp [countOccs_nil_of_ne p hp]
  | cons c a ih =>
    have hiff : (p <+: (c :: a) ++ b) ↔ (p <+: c :: a) := by
      constructor
      · intro h
        have := hspan 0 (by simp) (by simpa using h)
        simpa using this
      · intro h
        exact h.trans ( List.prefix_append _ _)
    have ih2 : countOccs p (a ++ b) = countOccs p a + countOccs p b := by
      apply ih
      intro i hi hpre
      have := hspan (i + 1) (by simpa using hi)
      simpa using this (by simpa using hpre)
    have hL : countOccs p ((c :: a) ++ b) =
        (if p <+: (c :: a) ++ b then 1 else 0) + countOccs p (a ++ b) := by
      simpa using countOccs_cons p c (a ++ b)
    rw [hL, countOccs_cons, ih2]
    by_cases hc : p <+: c :: a
    · rw [if_pos (hiff.mpr hc), if_pos hc]
      omega
    · rw [if_neg (fun h => hc (hiff.mp h)), if_neg hc]
      omega

theorem noSpan_of_suffix_condition (p a : List Char)
    (h : ∀ k ∈ List.range p.length, 0 < k → ¬ (a.drop (a.length - k)) <+: p) :
    ∀ b i, i < a.length → p <+: a.drop i ++ b → p <+: a.drop i := by
  intro b i hi hpre
  have hlen : (a.drop i).length = a.length - i := List.length_drop i a
  by_cases hl : p.length ≤ (a.drop i).length
  · exact prefix_of_append_of_le hpre hl
  · exfalso
    push_neg at hl
    have ht : a.drop i = p.take (a.drop i).length :=
      take_of_prefix_append hpre (Nat.le_of_lt hl)
    have hk1 : 0 < (a.drop i).length := by omega
    have hk2 : (a.drop i).length < p.length := hl
    have harg : a.length - ((a.drop i).length) = i := by omega
    refine h (a.drop i).length (List.mem_range.mpr hk2) hk1 ?_
    rw [harg, ht]
    exact List.take_prefix _ _

theorem noSpan_of_tail_condition (p b : List Char)
    (h : ∀ j ∈ List.range p.length, 0 < j → ¬ (p.drop j) <+: b) :
    ∀ (a : List Char) i, i < a.length → p <+: a.drop i ++ b → p <+: a.drop i := by
  intro a i hi hpre
  have hlen : (a.drop i).length = a.length - i := List.length_drop i a
  by_cases hl : p.length ≤ (a.drop i).length
  · exact prefix_of_append_of_le hpre hl
  · exfalso
    push_neg at hl
    have ht : a.drop i = p.take (a.drop i).length :=
      take_of_prefix_append hpre (Nat.le_of_lt hl)
    have hsplit : p = a.drop i ++ p.drop (a.drop i).length := by
      have h0 := (List.take_append_drop ((a.drop i).length) p).symm
      rw [← ht] at h0
      exact h0
    have hdrop : p.drop (a.drop i).length <+: b := by
      have h2 : a.drop i ++ p.drop (a.drop i).length <+: a.drop i ++ b := by
        rw [← hsplit]
        exact hpre
      exact ( List.prefix_append_right_inj _).mp h2
    have hk1 : 0 < (a.drop i).length := by omega
    exact h _ (List.mem_range.mpr hl) hk1 hdrop

theorem occursAt_shift (p a b : List Char) (j : Nat) (h : occursAt p b j) :
    occursAt p (a ++ b) (a.length + j) := by
  unfold occursAt at h ⊢
  rw [← List.drop_drop, List.drop_left]
  exact h

theorem proposal_data (s : String) (l : Int) :
    (create_synthetic_proposal s l).data = pre1 ++ (s.data ++ suf2 l) := by
  by_cases hl : l = 1
  · simp only [create_synthetic_proposal, apos, pre1, suf2, sufPos, if_pos hl,
      String.data_append, List.append_assoc, List.cons_append, List.nil_append]
  · simp only [create_synthetic_proposal, apos, pre1, suf2, sufNeg, if_neg hl,
      String.data_append, List.append_assoc, List.cons_append, List.nil_append]

theorem countOccs_proposal (p : List Char) (hp : p ≠ [])
    (h1 : ∀ k ∈ List.range p.length, 0 < k → ¬ (pre1.drop (pre1.length - k)) <+: p)
    (h2 : ∀ j ∈ List.range p.length, 0 < j → ¬ (p.drop j) <+: sufPos)
    (h3 : ∀ j ∈ List.range p.length, 0 < j → ¬ (p.drop j) <+: sufNeg)
    (s : String) (l : Int) (hs : countOccs p s.data = 0) :
    countOccs p (create_synthetic_proposal s l).data =
      countOccs p pre1 + countOccs p (suf2 l) := by
  rw [proposal_data]
  have hTail : ∀ j ∈ List.range p.length, 0 < j → ¬ (p.drop j) <+: suf2 l := by
    unfold suf2
    by_cases hl : l = 1
    · rw [if_pos hl]; exact h2
    · rw [if_neg hl]; exact h3
  rw [countOccs_append p pre1 (s.data ++ suf2 l) hp
    (noSpan_of_suffix_condition p pre1 h1 _)]
  rw [countOccs_append p s.data (suf2 l) hp
    (noSpan_of_tail_condition p (suf2 l) hTail s.data)]
  rw [hs]
  omega

/-- C2 (amended): for every (sentence, label) pair in which the sentence does
not itself contain any of the three section markers, `create_synthetic_proposal`
returns a string containing exactly one "Problem:", one "Hypothesis:" and one
"Methodology:" marker, occurring in that order; and calling it twice on the
same input yields byte-identical output. -/
theorem c2_template_marker_structure (sentence : String) (label : Int)
    (hp : countOccs problemMarker sentence.data = 0)
    (hh : countOccs hypothesisMarker sentence.data = 0)
    (hmm : countOccs methodologyMarker sentence.data = 0) :
    countOccs problemMarker (create_synthetic_proposal sentence label).data = 1 ∧
    countOccs hypothesisMarker (create_synthetic_proposal sentence label).data = 1 ∧
    countOccs methodologyMarker (create_synthetic_proposal sentence label).data = 1 ∧
    (∃ i j k : Nat, i < j ∧ j < k ∧
      occursAt problemMarker (create_synthetic_proposal sentence label).data i ∧
      occursAt hypothesisMarker (create_synthetic_proposal sentence label).data j ∧
      occursAt methodologyMarker (create_synthetic_proposal sentence label).data k) ∧
    create_synthetic_proposal sentence label = create_synthetic_proposal sentence label := by
  have hsufP : countOccs problemMarker (suf2 label) = 0 := by
    unfold suf2
    by_cases hl : label = 1
    · rw [if_pos hl]; decide
    · rw [if_neg hl]; decide
  have hsufH : countOccs hypothesisMarker (suf2 label) = 1 := by
    unfold suf2
    by_cases hl : label = 1
    · rw [if_pos hl]; decide
    · rw [if_neg hl]; decide
  have hsufM : countOccs methodologyMarker (suf2 label) = 1 := by
    unfold suf2
    by_cases hl : label = 1
    · rw [if_pos hl]; decide
    · rw [if_neg hl]; decide
  refine ⟨?_, ?_, ?_, ?_, rfl⟩
  · rw [countOccs_proposal problemMarker (by decide) (by decide) (by decide) (by decide)
      sentence label hp, hsufP]
    decide
  · rw [countOccs_proposal hypothesisMarker (by decide) (by decide) (by decide) (by decide)
      sentence label hh, hsufH]
    decide
  · rw [countOccs_proposal methodologyMarker (by decide) (by decide) (by decide) (by decide)
      sentence label hmm, hsufM]
    decide
  · have hout := proposal_data sentence label
    have hH2 : occursAt hypothesisMarker (suf2 label) 2 := by
      unfold occursAt suf2
      by_cases hl : label = 1
      · rw [if_pos hl]; decide
      · rw [if_neg hl]; decide
    have hM82 : occursAt methodologyMarker (suf2 label) 82 := by
      unfold occursAt suf2
      by_cases hl : label = 1
      · rw [if_pos hl]; decide
      · rw [if_neg hl]; decide
    refine ⟨0, pre1.length + (sentence.data.length + 2),
      pre1.length + (sentence.data.length + 82), by omega, by omega, ?_, ?_, ?_⟩
    · unfold occursAt
      rw [List.drop_zero, hout]
      exact (show problemMarker <+: pre1 by decide).trans ( List.prefix_append _ _)
    · rw [hout]
      exact occursAt_shift _ _ _ _ (occursAt_shift _ _ _ _ hH2)
    · rw [hout]
      exact occursAt_shift _ _ _ _ (occursAt_shift _ _ _ _ hM82)

/-- Witness for C2 at a concrete marker-free input. -/
theorem c2_template_marker_structure_witness :
    countOccs problemMarker
      (create_synthetic_proposal ("hide new secretions from the parental units") 0).data = 1 := by
  exact (c2_template_marker_structure ("hide new secretions from the parental units") 0
    (by decide) (by decide) (by decide)).1

/-- Counterexample to C2 as stated: when the sentence itself contains the
text "Problem:", the generated proposal contains two occurrences of the
"Problem:" marker, not exactly one. -/
theorem c2_counterexample :
    countOccs problemMarker (create_synthetic_proposal ("Problem:") 1).data = 2 ∧
    ¬ countOccs problemMarker (create_synthetic_proposal ("Problem:") 1).data = 1 := by
  constructor
  · decide
  · decide

/-- C3: on the literal sentence from the spec scenario with label 1, the
generator returns exactly the expected three-section string (the expected
value on the right is assembled from literals grouped differently from the
definition, with `apos` the single-quote character). -/
theorem c3_concrete_proposal :
    create_synthetic_proposal ("a stirring, funny and finally transporting re-imagining") 1 =
      "Problem: Analyze sentiment in short texts like: " ++ apos ++
        "a stirring, funny and finally transporting re-imagining" ++ apos ++
        "\nHypothesis: The positive sentiment can be detected using contextual embeddings.\nMethodology: Use a transformer-based model with fine-tuning on short-text datasets." := by
  rfl

/-- C5: for every non-empty prediction list, the relevance ratio is the number
of predictions containing all three markers divided by the total count; it is
1 when every prediction contains all three markers, 0 when none does, and a
prediction with only two of the three markers contributes nothing to the
numerator. -/
theorem c5_relevance_ratio (gen : List String) (hne : gen ≠ []) :
    relevance gen =
      some ((gen.countP containsAllMarkers : ℚ) / (gen.length : ℚ)) ∧
    ((∀ p ∈ gen, containsAllMarkers p = true) → relevance gen = some 1) ∧
    ((∀ p ∈ gen, containsAllMarkers p = false) → relevance gen = some 0) ∧
    (∀ (p : String) (rest : List String),
      containsSub problemMarker p.data = true →
      containsSub hypothesisMarker p.data = true →
      containsSub methodologyMarker p.data = false →
      (p :: rest).countP containsAllMarkers = rest.countP containsAllMarkers) := by
  have hlen : gen.length ≠ 0 := by
    simpa [List.length_eq_zero] using hne
  have hform : relevance gen =
      some ((gen.countP containsAllMarkers : ℚ) / (gen.length : ℚ)) := by
    unfold relevance
    rw [if_neg hlen]
  refine ⟨hform, ?_, ?_, ?_⟩
  · intro hall
    rw [hform]
    have hcount : gen.countP containsAllMarkers = gen.length :=
      List.countP_eq_length.mpr (by simpa using hall)
    rw [hcount, div_self (by exact_mod_cast hlen)]
  · intro hnone
    rw [hform]
    have hcount : gen.countP containsAllMarkers = 0 :=
      List.countP_eq_zero.mpr (by simpa using hnone)
    rw [hcount]
    norm_num
  · intro p rest h1 h2 h3
    apply List.countP_cons_of_neg
    simp [containsAllMarkers, h1, h2, h3]

/-- Witness for C5: a single prediction containing all three markers gives
relevance 1. -/
theorem c5_relevance_ratio_witness :
    relevance [("Problem: a Hypothesis: b Methodology: c")] = some 1 := by
  exact (c5_relevance_ratio [("Problem: a Hypothesis: b Methodology: c")]
    (by simp)).2.1 (by decide)

/-- C10: the relevance computation has no guard on the denominator: it fails
(returns no value) on an empty prediction list, and for every non-empty
prediction list it is well-defined with a value in [0, 1]. -/
theorem c10_relevance_division_guard :
    relevance [] = none ∧
    ∀ gen : List String, gen ≠ [] →
      ∃ q : ℚ, relevance gen = some q ∧ 0 ≤ q ∧ q ≤ 1 := by
  refine ⟨rfl, ?_⟩
  intro gen hne
  have hlen : gen.length ≠ 0 := by
    simpa [List.length_eq_zero] using hne
  refine ⟨(gen.countP containsAllMarkers : ℚ) / (gen.length : ℚ), ?_, ?_, ?_⟩
  · unfold relevance
    rw [if_neg hlen]
  · positivity
  · rw [div_le_one (by exact_mod_cast Nat.pos_of_ne_zero hlen)]
    exact_mod_cast List.countP_le_length containsAllMarkers

/-- Witness for C10 at a concrete non-empty prediction list. -/
theorem c10_relevance_division_guard_witness :
    ∃ q : ℚ, relevance [("x")] = some q ∧ 0 ≤ q ∧ q ≤ 1 :=
  c10_relevance_division_guard.2 [("x")] (by simp)

/-- C4: with `perm1` the seeded shuffle of the source and `perm2` the seeded
shuffle of the 20% remainder (a fixed seed gives a fixed shuffle, which is
what makes repeated runs identical), the two-stage split yields train, val
and test sets whose sizes are 0.8, 0.1 and 0.1 of the source within rounding
(stated as `|10·size − frac·10·|source|| ≤ 9`), which together are a
permutation of the source, which are pairwise disjoint when the source has
no duplicate rows, and which depend only on the two shuffles. -/
theorem c4_two_stage_split (source perm1 perm2 : List α)
    (h1 : perm1.Perm source)
    (h2 : perm2.Perm (perm1.take (tempSize perm1.length))) :
    (((twoStageSplit perm1 perm2).1.length * 10 : Int) -
        8 * (source.length : Int)).natAbs ≤ 9 ∧
    (((twoStageSplit perm1 perm2).2.1.length * 10 : Int) -
        (source.length : Int)).natAbs ≤ 9 ∧
    (((twoStageSplit perm1 perm2).2.2.length * 10 : Int) -
        (source.length : Int)).natAbs ≤ 9 ∧
    ((twoStageSplit perm1 perm2).1 ++
      ((twoStageSplit perm1 perm2).2.1 ++ (twoStageSplit perm1 perm2).2.2)).Perm source ∧
    (source.Nodup →
      (twoStageSplit perm1 perm2).1.Disjoint (twoStageSplit perm1 perm2).2.1 ∧
      (twoStageSplit perm1 perm2).1.Disjoint (twoStageSplit perm1 perm2).2.2 ∧
      (twoStageSplit perm1 perm2).2.1.Disjoint (twoStageSplit perm1 perm2).2.2) ∧
    (∀ q1 q2 : List α, q1 = perm1 → q2 = perm2 →
      twoStageSplit q1 q2 = twoStageSplit perm1 perm2) := by
  have hn1 : perm1.length = source.length := h1.length_eq
  have hk1le : tempSize perm1.length ≤ perm1.length := by
    unfold tempSize
    omega
  have htemp : (perm1.take (tempSize perm1.length)).length = tempSize perm1.length := by
    rw [List.length_take]
    omega
  have hn2 : perm2.length = tempSize perm1.length := by
    rw [h2.length_eq, htemp]
  have hsizes : (twoStageSplit perm1 perm2).1.length = perm1.length - tempSize perm1.length ∧
      (twoStageSplit perm1 perm2).2.1.length = perm2.length - halfSize perm2.length ∧
      (twoStageSplit perm1 perm2).2.2.length = halfSize perm2.length := by
    unfold twoStageSplit train_test_split
    refine ⟨?_, ?_, ?_⟩
    · simp
    · simp
    · rw [List.length_take]
      unfold halfSize
      omega
  obtain ⟨hs1, hs2, hs3⟩ := hsizes
  have hvt : ((twoStageSplit perm1 perm2).2.1 ++ (twoStageSplit perm1 perm2).2.2).Perm
      (perm1.take (tempSize perm1.length)) := by
    unfold twoStageSplit train_test_split
    exact (List.perm_append_comm.trans
      (by rw [List.take_append_drop])).trans h2
  refine ⟨?_, ?_, ?_, ?_, ?_, ?_⟩
  · rw [hs1]
    unfold tempSize
    omega
  · rw [hs2, hn2]
    unfold halfSize tempSize
    omega
  · rw [hs3, hn2]
    unfold halfSize tempSize
    omega
  · have htr : (twoStageSplit perm1 perm2).1 = perm1.drop (tempSize perm1.length) := rfl
    have hall : ((twoStageSplit perm1 perm2).1 ++
        ((twoStageSplit perm1 perm2).2.1 ++ (twoStageSplit perm1 perm2).2.2)).Perm
        (perm1.drop (tempSize perm1.length) ++ perm1.take (tempSize perm1.length)) := by
      rw [htr]
      exact (List.Perm.refl _).append hvt
    exact hall.trans ((List.perm_append_comm.trans
      (by rw [List.take_append_drop])).trans h1)
  · intro hnd
    have hnd1 : perm1.Nodup := h1.nodup_iff.mpr hnd
    have hsplit1 : (perm1.take (tempSize perm1.length) ++
        perm1.drop (tempSize perm1.length)).Nodup := by
      rw [List.take_append_drop]
      exact hnd1
    have hdisj1 : (perm1.take (tempSize perm1.length)).Disjoint
        (perm1.drop (tempSize perm1.length)) :=
      List.disjoint_of_nodup_append hsplit1
    have hnd2 : perm2.Nodup := h2.nodup_iff.mpr (hnd1.sublist (List.take_sublist _ _))
    have hsplit2 : (perm2.take (halfSize perm2.length) ++
        perm2.drop (halfSize perm2.length)).Nodup := by
      rw [List.take_append_drop]
      exact hnd2
    have hdisj2 : (perm2.take (halfSize perm2.length)).Disjoint
        (perm2.drop (halfSize perm2.length)) :=
      List.disjoint_of_nodup_append hsplit2
    have hmem2 : ∀ a, a ∈ perm2 → a ∈ perm1.take (tempSize perm1.length) :=
      fun a ha => h2.mem_iff.mp ha
    refine ⟨?_, ?_, ?_⟩
    · intro a hatr haval
      exact hdisj1 (hmem2 a (List.drop_subset _ _ haval)) hatr
    · intro a hatr hatest
      exact hdisj1 (hmem2 a (List.take_subset _ _ hatest)) hatr
    · intro a haval hatest
      exact hdisj2 hatest haval
  · intro q1 q2 hq1 hq2
    rw [hq1, hq2]

/-- Witness for C4 on a concrete 10-element source with concrete shuffles. -/
theorem c4_two_stage_split_witness :
    ((twoStageSplit [9, 8, 7, 6, 5, 4, 3, 2, 1, 0] [8, 9]).1 ++
      ((twoStageSplit [9, 8, 7, 6, 5, 4, 3, 2, 1, 0] [8, 9]).2.1 ++
        (twoStageSplit [9, 8, 7, 6, 5, 4, 3, 2, 1, 0] [8, 9]).2.2)).Perm
      [0, 1, 2, 3, 4, 5, 6, 7, 8, 9] :=
  (c4_two_stage_split [0, 1, 2, 3, 4, 5, 6, 7, 8, 9] [9, 8, 7, 6, 5, 4, 3, 2, 1, 0]
    [8, 9] (by decide) (by decide)).2.2.2.1

/-- C7: a dataset-load or model-load failure is caught and turns into an
immediate interpreter exit with non-zero status carrying the printed
diagnostic; a failure in tokenization, training or evaluation propagates
uncaught (preprocessing is also guarded, matching the guard in the code); and with
all stages succeeding the run completes. -/
theorem c7_error_handling (dsLoad preprocess modelLoad tokenizeStage trainLoop evalStage :
    Except String Unit) :
    (∀ e, dsLoad = .error e →
      pipeline dsLoad preprocess modelLoad tokenizeStage trainLoop evalStage =
        .exited 1 datasetHint ∧ (1 : Nat) ≠ 0) ∧
    (∀ e, dsLoad = .ok () → preprocess = .ok () → modelLoad = .error e →
      pipeline dsLoad preprocess modelLoad tokenizeStage trainLoop evalStage =
        .exited 1 modelHint ∧ (1 : Nat) ≠ 0) ∧
    (∀ e, dsLoad = .ok () → preprocess = .error e →
      pipeline dsLoad preprocess modelLoad tokenizeStage trainLoop evalStage =
        .exited 1 preprocessHint) ∧
    (∀ e, dsLoad = .ok () → preprocess = .ok () → modelLoad = .ok () →
      tokenizeStage = .error e →
      pipeline dsLoad preprocess modelLoad tokenizeStage trainLoop evalStage =
        .crashed e) ∧
    (∀ e, dsLoad = .ok () → preprocess = .ok () → modelLoad = .ok () →
      tokenizeStage = .ok () → trainLoop = .error e →
      pipeline dsLoad preprocess modelLoad tokenizeStage trainLoop evalStage =
        .crashed e) ∧
    (∀ e, dsLoad = .ok () → preprocess = .ok () → modelLoad = .ok () →
      tokenizeStage = .ok () → trainLoop = .ok () → evalStage = .error e →
      pipeline dsLoad preprocess modelLoad tokenizeStage trainLoop evalStage =
        .crashed e) ∧
    (dsLoad = .ok () → preprocess = .ok () → modelLoad = .ok () →
      tokenizeStage = .ok () → trainLoop = .ok () → evalStage = .ok () →
      pipeline dsLoad preprocess modelLoad tokenizeStage trainLoop evalStage =
        .completed) := by
  refine ⟨?_, ?_, ?_, ?_, ?_, ?_, ?_⟩
  · intro e he
    subst he
    exact ⟨rfl, by omega⟩
  · intro e h1 h2 h3
    subst h1; subst h2; subst h3
    exact ⟨rfl, by omega⟩
  · intro e h1 h2
    subst h1; subst h2
    rfl
  · intro e h1 h2 h3 h4
    subst h1; subst h2; subst h3; subst h4
    rfl
  · intro e h1 h2 h3 h4 h5
    subst h1; subst h2; subst h3; subst h4; subst h5
    rfl
  · intro e h1 h2 h3 h4 h5 h6
    subst h1; subst h2; subst h3; subst h4; subst h5; subst h6
    rfl
  · intro h1 h2 h3 h4 h5 h6
    subst h1; subst h2; subst h3; subst h4; subst h5; subst h6
    rfl

/-- Witness for C7: a failing dataset load exits with status 1 and the
dataset hint, whatever the later stages would have done. -/
theorem c7_error_handling_witness :
    pipeline (.error "connection refused") (.ok ()) (.ok ()) (.ok ()) (.ok ()) (.ok ()) =
      .exited 1 datasetHint ∧ (1 : Nat) ≠ 0 :=
  (c7_error_handling (.error "connection refused") (.ok ()) (.ok ()) (.ok ()) (.ok ())
    (.ok ())).1 "connection refused" rfl

theorem runValidation_spec {P B : Type} (forward : P → B → ℚ) (st : TrainState P)
    (batches : List B) :
    (runValidation forward st batches).params = st.params ∧
    (runValidation forward st batches).runningTrainLoss = st.runningTrainLoss ∧
    (runValidation forward st batches).runningValLoss =
      st.runningValLoss + (batches.map (forward st.params)).sum := by
  induction batches generalizing st with
  | nil => simp [runValidation]
  | cons b rest ih =>
    have h := ih (valStep forward st b)
    unfold runValidation at h ⊢
    rw [List.foldl_cons]
    refine ⟨?_, ?_, ?_⟩
    · rw [h.1]; rfl
    · rw [h.2.1]; rfl
    · rw [h.2.2]
      simp only [valStep, List.map_cons, List.sum_cons]
      ring

/-- C8: the VALIDATE phase leaves every model parameter (adapters included)
unchanged and does not touch the training-loss accumulator; the only state
it changes is the running validation loss, which accumulates exactly the
forward-pass losses at the unchanged parameters; and per batch it
accumulates the same forward-pass loss value that a training step at the
same state would accumulate, whatever the optimizer update is. -/
theorem c8_validation_frame {P B : Type} (forward : P → B → ℚ) (optStep : P → B → P)
    (st : TrainState P) (batches : List B) :
    (runValidation forward st batches).params = st.params ∧
    (runValidation forward st batches).runningTrainLoss = st.runningTrainLoss ∧
    (runValidation forward st batches).runningValLoss =
      st.runningValLoss + (batches.map (forward st.params)).sum ∧
    (∀ b : B, (valStep forward st b).runningValLoss - st.runningValLoss =
      (trainStep forward optStep st b).runningTrainLoss - st.runningTrainLoss) := by
  obtain ⟨h1, h2, h3⟩ := runValidation_spec forward st batches
  refine ⟨h1, h2, h3, ?_⟩
  intro b
  simp [valStep, trainStep]

/-- C9: for any string, decoding (with special tokens stripped) the token
sequence produced by the target tokenization at the 256-token cap gives the
decode of the raw encoding truncated at the cap; in particular, when the raw
encoding fits under the cap and the underlying tokenizer round-trips on this
string, the round trip through the notebook tokenization is exact.  The
SentencePiece encoder/decoder pair is abstract; `hclean` states its content
ids are disjoint from the special ids (T5 content ids are at least 2). -/
theorem c9_tokenize_roundtrip (encodeRaw : String → List Nat)
    (decodeRaw : List Nat → String) (s : String)
    (hclean : ∀ t ∈ encodeRaw s, 2 ≤ t) :
    decodeSkipSpecial decodeRaw (tokenizeWithCap encodeRaw 256 s) =
      decodeRaw ((encodeRaw s).take 255) ∧
    ((encodeRaw s).length ≤ 255 → decodeRaw (encodeRaw s) = s →
      decodeSkipSpecial decodeRaw (tokenizeWithCap encodeRaw 256 s) = s) := by
  have hfilter : (tokenizeWithCap encodeRaw 256 s).filter
      (fun t => !(t == padId) && !(t == eosId)) = (encodeRaw s).take 255 := by
    unfold tokenizeWithCap
    rw [List.filter_append, List.filter_append]
    have h1 : ((encodeRaw s).take 255).filter (fun t => !(t == padId) && !(t == eosId)) =
        (encodeRaw s).take 255 := by
      apply List.filter_eq_self.mpr
      intro t ht
      have h2 := hclean t (List.take_subset _ _ ht)
      have h0 : (t == padId) = false := by
        simp only [padId, beq_eq_false_iff_ne, ne_eq]
        omega
      have h1x : (t == eosId) = false := by
        simp only [eosId, beq_eq_false_iff_ne, ne_eq]
        omega
      rw [h0, h1x]
      rfl
    have h2 : ([eosId].filter (fun t => !(t == padId) && !(t == eosId))) = [] := by
      decide
    have h3 : ∀ n : Nat, ((List.replicate n padId).filter
        (fun t => !(t == padId) && !(t == eosId))) = [] := by
      intro n
      apply List.filter_eq_nil_iff.mpr
      intro t ht
      rw [List.eq_of_mem_replicate ht]
      decide
    rw [h1, h2, h3]
    simp
  have hmain : decodeSkipSpecial decodeRaw (tokenizeWithCap encodeRaw 256 s) =
      decodeRaw ((encodeRaw s).take 255) := by
    unfold decodeSkipSpecial
    rw [hfilter]
  refine ⟨hmain, ?_⟩
  intro hlen hround
  rw [hmain, List.take_of_length_le hlen, hround]

/-- Witness for C9: the toy tokenizer satisfies the hypotheses on "ab" and
the round trip through the notebook tokenization is exact there. -/
theorem c9_tokenize_roundtrip_witness :
    (∀ t ∈ toyEncode ("ab"), 2 ≤ t) ∧
    decodeSkipSpecial toyDecode (tokenizeWithCap toyEncode 256 ("ab")) = ("ab") :=
  ⟨by decide, (c9_tokenize_roundtrip toyEncode toyDecode ("ab") (by decide)).2
    (by decide) (by decide)⟩

/-- C1 (code bug): the target of the toy two-character string "ab" occupies
positions 0..2 (two content tokens and eos), so positions 3..255 of its
256-long label row are padding.  After the collator runs, the label row
still has length 256, position 3 carries the pad id 0 rather than the
ignore index -100, and every one of the 256 positions, the 253 target
padding positions included, counts toward the loss, contradicting the
required invariant that target padding be flagged and ignored. -/
theorem c1_target_padding_counted_in_loss :
    ((collateLabels [tokenize_function_labels toyEncode ("ab")]).headD []).length = 256 ∧
    ((collateLabels [tokenize_function_labels toyEncode ("ab")]).headD []).getD 3 ignoreIndex
      = (padId : Int) ∧
    lossCountsPosition
      (((collateLabels [tokenize_function_labels toyEncode ("ab")]).headD []).getD 3 ignoreIndex)
      = true ∧
    ((collateLabels [tokenize_function_labels toyEncode ("ab")]).headD []).countP
      lossCountsPosition = 256 := by
  refine ⟨by decide, by decide, by decide, by decide⟩

theorem dotR_self_nonneg {d : Nat} (a : Fin d → ℝ) : 0 ≤ dotR a a :=
  Finset.sum_nonneg fun _ _ => mul_self_nonneg _

theorem abs_dotR_le {d : Nat} (a b : Fin d → ℝ) :
    |dotR a b| ≤ Real.sqrt (dotR a a) * Real.sqrt (dotR b b) := by
  have hub : dotR a b ≤ Real.sqrt (dotR a a) * Real.sqrt (dotR b b) := by
    have h := Real.sum_mul_le_sqrt_mul_sqrt Finset.univ a b
    simpa [dotR, pow_two] using h
  have hlb : -(Real.sqrt (dotR a a) * Real.sqrt (dotR b b)) ≤ dotR a b := by
    have h := Real.sum_mul_le_sqrt_mul_sqrt Finset.univ (fun i => -(a i)) b
    have h2 : ∑ i, -(a i) * b i = -(dotR a b) := by
      simp [dotR, Finset.sum_neg_distrib]
    have h3 : ∑ i, (-(a i)) ^ 2 = ∑ i, (a i) ^ 2 := by
      simp
    rw [h2, h3] at h
    have h4 : Real.sqrt (∑ i, a i ^ 2) * Real.sqrt (∑ i, b i ^ 2) =
        Real.sqrt (dotR a a) * Real.sqrt (dotR b b) := by
      simp [dotR, pow_two]
    rw [h4] at h
    linarith
  exact abs_le.mpr ⟨hlb, hub⟩

theorem abs_cosSim_le_one {d : Nat} (a b : Fin d → ℝ) : |cosSim a b| ≤ 1 := by
  have hDnn : 0 ≤ Real.sqrt (dotR a a) * Real.sqrt (dotR b b) :=
    mul_nonneg (Real.sqrt_nonneg _) (Real.sqrt_nonneg _)
  rcases eq_or_lt_of_le hDnn with h0 | hpos
  · rw [cosSim, ← h0, div_zero, abs_zero]
    exact zero_le_one
  · rw [cosSim, abs_div, abs_of_pos hpos, div_le_one hpos]
    exact abs_dotR_le a b

theorem dotR_self_ne_zero {d : Nat} (v : Fin d → ℝ) (hv : v ≠ 0) : dotR v v ≠ 0 := by
  have hex : ∃ i, v i ≠ 0 := by
    by_contra hc
    push_neg at hc
    exact hv (funext hc)
  obtain ⟨i, hi⟩ := hex
  have hpos : 0 < dotR v v :=
    Finset.sum_pos' (fun j _ => mul_self_nonneg _)
      ⟨i, Finset.mem_univ i, mul_self_pos.mpr hi⟩
  exact ne_of_gt hpos

theorem cosSim_self_of_ne_zero {d : Nat} (v : Fin d → ℝ) (hv : dotR v v ≠ 0) :
    cosSim v v = 1 := by
  unfold cosSim
  rw [Real.mul_self_sqrt (dotR_self_nonneg v)]
  exact div_self hv

theorem list_abs_sum_le (l : List ℝ) (c : ℝ) (h : ∀ x ∈ l, |x| ≤ c) :
    |l.sum| ≤ l.length * c := by
  induction l with
  | nil => simp
  | cons x xs ih =>
    have hx := h x (by simp)
    have hxs := ih (fun y hy => h y (by simp [hy]))
    have habs : |x + xs.sum| ≤ |x| + |xs.sum| := abs_add _ _
    have hlen : ((x :: xs).length : ℝ) * c = c + xs.length * c := by
      push_cast [List.length_cons]
      ring
    calc |(x :: xs).sum| = |x + xs.sum| := by rw [List.sum_cons]
      _ ≤ |x| + |xs.sum| := habs
      _ ≤ c + xs.length * c := by linarith
      _ = ((x :: xs).length : ℝ) * c := hlen.symm

theorem abs_pairSimSum_le {d : Nat} (es : List (Fin d → ℝ)) :
    |pairSimSum es| ≤ (es.length : ℝ) * es.length := by
  unfold pairSimSum
  have houter : ∀ y ∈ es.map (fun a => (es.map (fun b => cosSim a b)).sum),
      |y| ≤ (es.length : ℝ) := by
    intro y hy
    obtain ⟨a, ha, rfl⟩ := List.mem_map.mp hy
    have hin := list_abs_sum_le (es.map (fun b => cosSim a b)) 1
      (fun x hx => by
        obtain ⟨b, hb, rfl⟩ := List.mem_map.mp hx
        exact abs_cosSim_le_one a b)
    simpa using hin
  have hout := list_abs_sum_le (es.map (fun a => (es.map (fun b => cosSim a b)).sum))
    ((es.length : ℝ)) houter
  simpa using hout

theorem pairSimSum_const {d : Nat} (es : List (Fin d → ℝ)) (v : Fin d → ℝ)
    (hv : dotR v v ≠ 0) (hall : ∀ x ∈ es, x = v) :
    pairSimSum es = (es.length : ℝ) * es.length := by
  unfold pairSimSum
  have hinner : ∀ a ∈ es, es.map (fun b => cosSim a b) =
      List.replicate es.length (1 : ℝ) := by
    intro a ha
    apply List.eq_replicate_iff.mpr
    refine ⟨by simp, ?_⟩
    intro y hy
    obtain ⟨b, hb, rfl⟩ := List.mem_map.mp hy
    rw [hall a ha, hall b hb]
    exact cosSim_self_of_ne_zero v hv
  have houter : es.map (fun a => (es.map (fun b => cosSim a b)).sum) =
      List.replicate es.length ((es.length : ℝ)) := by
    apply List.eq_replicate_iff.mpr
    refine ⟨by simp, ?_⟩
    intro y hy
    obtain ⟨a, ha, rfl⟩ := List.mem_map.mp hy
    rw [hinner a ha, List.sum_replicate, nsmul_eq_mul, mul_one]
  rw [houter, List.sum_replicate, nsmul_eq_mul]

/-- C6 (amended): for a non-empty prediction list the novelty score lies in
[0, 2]; and it equals 0 whenever all sampled embeddings are identical and
nonzero. -/
theorem c6_novelty_range {d : Nat} (gen : List (Fin d → ℝ)) (hne : gen ≠ []) :
    (0 ≤ noveltyScore gen ∧ noveltyScore gen ≤ 2) ∧
    (∀ v : Fin d → ℝ, v ≠ 0 → (∀ x ∈ gen.take (min 100 gen.length), x = v) →
      noveltyScore gen = 0) := by
  set es := gen.take (min 100 gen.length) with hes
  have hlen : es.length = min 100 gen.length := by
    rw [hes, List.length_take]
    omega
  have hpos : 0 < es.length := by
    have hg : gen.length ≠ 0 := by simpa [List.length_eq_zero] using hne
    omega
  have hkpos : (0 : ℝ) < (es.length : ℝ) * es.length := by
    have h1 : (0 : ℝ) < (es.length : ℝ) := by exact_mod_cast hpos
    exact mul_pos h1 h1
  constructor
  · have hb := abs_pairSimSum_le es
    have hmean : |meanPairSim es| ≤ 1 := by
      unfold meanPairSim
      rw [abs_div, abs_of_pos hkpos, div_le_one hkpos]
      exact hb
    rw [abs_le] at hmean
    unfold noveltyScore
    rw [← hes]
    constructor <;> [linarith [hmean.2]; linarith [hmean.1]]
  · intro v hv hall
    have hq := pairSimSum_const es v (dotR_self_ne_zero v hv) hall
    unfold noveltyScore
    rw [← hes]
    unfold meanPairSim
    rw [hq, div_self (ne_of_gt hkpos)]
    ring

/-- Witness for C6 with a single nonzero one-dimensional embedding. -/
theorem c6_novelty_range_witness :
    noveltyScore [(fun _ => (1 : ℝ) : Fin 1 → ℝ)] = 0 := by
  refine (c6_novelty_range [(fun _ => (1 : ℝ) : Fin 1 → ℝ)] (by simp)).2
    (fun _ => (1 : ℝ)) ?_ ?_
  · intro h
    exact one_ne_zero (congrFun h 0)
  · intro x hx
    simpa using (List.mem_singleton.mp (by simpa using hx))

/-- Counterexample to C6 as stated: for the singleton list holding the zero
embedding all sampled embeddings are identical, yet the novelty score is 1,
not 0 (the cosine matrix entry for the zero vector is 0, not 1). -/
theorem c6_counterexample :
    noveltyScore [(0 : Fin 1 → ℝ)] = 1 ∧ (1 : ℝ) ≠ 0 := by
  constructor
  · unfold noveltyScore meanPairSim pairSimSum cosSim dotR
    norm_num
  · norm_num
